import Mathlib

/-!
# vite-plugin-rollbar: the sourcemap upload pipeline

A shallow embedding of the two builds of the plugin,

* the manifest variant, `src/index.js` (namespace `Manifest`), and
* the pattern variant, `esm/index.js` (namespace `Pattern`),

together with the function `uploadSourcemap`, which both files define with
the same body.

JavaScript strings are Lean strings.  A thrown value is a `JsError`, a
function that may throw returns `Except JsError _`.  The collaborators the
plugin calls (the file system, `path`, `glob`, `fetch`) are fields of a host
record.  Asynchronous code is run on a logical clock that counts jobs of the
event loop: tick `0` is the job in which `writeBundle` locates the artifacts
and dispatches the uploads, and a promise settles at some later tick.
-/

deriving instance DecidableEq for Except

namespace RollbarPlugin

/-! ## Values -/

/-- A thrown JavaScript value: a built-in error object with its `name` and
`message`; the object built by `new VError(cause, ...)`, with its cause and
the message the constructor formatted; or the plain `Error`, without cause,
that `sprintf` of the library `extsprintf` throws for a conversion that has no
argument, named by the format and the conversion character. -/
inductive JsError where
  | error (name : String) (message : String)
  | verror (cause : JsError) (message : String)
  | formatError (format : String) (conversion : Char)
  deriving DecidableEq, Repr

/-- The value `res.json()` resolves to.  A number is kept as the text
JavaScript renders it to, an object as its own properties in order. -/
inductive Json where
  | null
  | bool (b : Bool)
  | num (rendered : String)
  | str (s : String)
  | arr (items : List Json)
  | obj (members : List (String × Json))

/-- The access `body?.message`: `none` stands for `undefined`.  Only an object
with an own property `message` has one; `null`, booleans, numbers, strings and
arrays have no such property. -/
def Json.message? : Json → Option Json
  | .obj members => members.lookup "message"
  | _ => none

/-- The `TypeError` of a conversion to string that finds no usable `toString`
or `valueOf`. -/
def cannotConvert : JsError :=
  .error "TypeError" "Cannot convert object to primitive value"

mutual
/-- The conversion to string a template literal `${v}` applies to a JSON
value.  An array is joined with `,`.  An object without an own property
`toString` gives `[object Object]`; with one (a JSON value, so not callable)
neither it nor `valueOf` yields a primitive and the conversion throws. -/
def Json.render : Json → Except JsError String
  | .null => .ok "null"
  | .bool true => .ok "true"
  | .bool false => .ok "false"
  | .num rendered => .ok rendered
  | .str s => .ok s
  | .arr items => Json.renderItems items
  | .obj members =>
    match members.lookup "toString" with
    | some _ => .error cannotConvert
    | none => .ok "[object Object]"
/-- The result of `Array.prototype.join` with the separator `,`: a `null`
element contributes the empty string, every other element is converted, and
the first conversion that throws ends the call. -/
def Json.renderItems : List Json → Except JsError String
  | [] => .ok ""
  | [.null] => .ok ""
  | [v] => Json.render v
  | .null :: rest =>
    match Json.renderItems rest with
    | .ok tail => .ok ("," ++ tail)
    | .error e => .error e
  | v :: rest =>
    match Json.render v with
    | .error e => .error e
    | .ok head =>
      match Json.renderItems rest with
      | .ok tail => .ok (head ++ "," ++ tail)
      | .error e => .error e
end

/-- The response object `fetch` resolves to, as far as `uploadSourcemap`
reads it: `ok`, `status`, `statusText`, and what `res.json()` does (it
rejects when the body is not JSON), after `bodyDelay` further ticks. -/
structure Response where
  ok : Bool
  status : Nat
  statusText : String
  json : Except JsError Json
  bodyDelay : Nat

/-- One value of a multipart form: a text field or a file part. -/
inductive FormValue where
  | text (value : String)
  | file (content : String) (filename : String) (contentType : Option String)
  deriving DecidableEq, Repr

/-- A `FormData` object: its entries in order. -/
structure Form where
  entries : List (String × FormValue)
  deriving DecidableEq, Repr

/-- The object `new FormData()`. -/
def Form.empty : Form := ⟨[]⟩

/-- The method `append` of a form. -/
def Form.append (form : Form) (name : String) (value : FormValue) : Form :=
  ⟨form.entries ++ [(name, value)]⟩

/-- Setting an entry in a list of entries: the first entry of that name is
replaced and the others of that name removed, or the entry is appended. -/
def setEntry : List (String × FormValue) → String → FormValue → List (String × FormValue)
  | [], name, value => [(name, value)]
  | (n, v) :: rest, name, value =>
    if n = name then (name, value) :: rest.filter (fun e => e.1 ≠ name)
    else (n, v) :: setEntry rest name value

/-- The method `set` of a form. -/
def Form.set (form : Form) (name : String) (value : FormValue) : Form :=
  ⟨setEntry form.entries name value⟩

/-- The method `get` of a form: the first value of that name. -/
def Form.get (form : Form) (name : String) : Option FormValue :=
  form.entries.lookup name

/-- What the network does with one `fetch` call: after `delay` further ticks
the promise rejects (a transport failure) or resolves to a response. -/
structure FetchReply where
  delay : Nat
  outcome : Except JsError Response

/-- A request `fetch(url, { method: 'POST', body })`. -/
structure Post where
  url : String
  body : Form
  deriving DecidableEq, Repr

/-- The network: the reply to the `i`-th request of a run. -/
abbrev Network := Nat → Post → FetchReply

/-! ## `uploadSourcemap` -/

/-- The destructured second argument of `uploadSourcemap`. -/
structure UploadArgs where
  filename : String
  rollbarEndpoint : String
  silent : Bool

/-- One call of `uploadSourcemap`: the requests it issued, the tick (counted
from the call) at which the promise it returns settles, how it settles, and
the `console.info` lines it wrote. -/
structure UploadRun where
  posts : List Post
  settledAt : Nat
  result : Except JsError Unit
  info : List String

/-- The constant `errMessage`. -/
def errMessage (filename : String) : String :=
  "Failed to upload " ++ filename ++ " to Rollbar"

/-- The string `${res.status} - ${res.statusText}`. -/
def statusLine (res : Response) : String :=
  toString res.status ++ " - " ++ res.statusText

/-- The variable `details` of the branch `!res.ok` as the template literal
of the thrown error converts it: the string, or what the conversion throws. -/
def details (res : Response) : Except JsError String :=
  match res.json with
  | .error _ => .ok (statusLine res)
  | .ok body =>
    match body.message? with
    | none => .ok (statusLine res)
    | some .null => .ok (statusLine res)
    | some v => v.render

/-! ### The message of a `VError`

`new VError(err, errMessage)` hands `errMessage` to `sprintf` of `extsprintf`
as a format, with no argument.  `sprintf` searches the format with the pattern

    ([^%]*)%(['\-+ #0]*?)([1-9]\d*)?(\.([1-9]\d*))?[lhjztL]*?([diouxXfFeEgGaAcCsSp%jr])

copies the text before a match, writes `%` for the conversion `%`, throws for
any other conversion (it has no argument), and goes on with the format cut by
the length of the match. -/

/-- The flag characters of a conversion. -/
def flagChars : List Char := [Char.ofNat 39, '-', '+', ' ', '#', '0']

/-- The length modifiers of a conversion. -/
def lengthChars : List Char := "lhjztL".data

/-- The conversion characters. -/
def conversionChars : List Char := "diouxXfFeEgGaAcCsSp%jr".data

/-- What is left after a lazy run `[set]*?`: nothing taken first, then one
character more at a time. -/
def lazyRests (set : List Char) : List Char → List (List Char)
  | [] => [[]]
  | c :: cs => (c :: cs) :: (if set.contains c then lazyRests set cs else [])

/-- What is left after the optional greedy number `([1-9]\d*)?`: the longest
number first, then shorter ones, then none. -/
def numberRests : List Char → List (List Char)
  | [] => [[]]
  | c :: cs =>
    (if "123456789".data.contains c then (lazyRests "0123456789".data cs).reverse else [])
      ++ [c :: cs]

/-- What is left after the optional precision `(\.([1-9]\d*))?`. -/
def precisionRests : List Char → List (List Char)
  | '.' :: cs => (numberRests cs).dropLast ++ ['.' :: cs]
  | cs => [cs]

/-- The final conversion character of the pattern. -/
def conversionOf : List Char → Option (Char × List Char)
  | [] => none
  | c :: cs => if conversionChars.contains c then some (c, cs) else none

/-- The pattern after its `%`: the conversion character of the first way to
match, in the order a backtracking matcher tries them, and what is left. -/
def parseSpec (cs : List Char) : Option (Char × List Char) :=
  ((((lazyRests flagChars cs).flatMap numberRests).flatMap precisionRests).flatMap
    (lazyRests lengthChars)).findSome? conversionOf

/-- The pattern at one start position: the text before the `%`, the
conversion character, and the length of the match. -/
def matchHere (cs : List Char) : Option (List Char × Char × Nat) :=
  let text := cs.takeWhile (fun c => c != '%')
  match cs.dropWhile (fun c => c != '%') with
  | [] => none
  | _ :: after =>
    match parseSpec after with
    | none => none
    | some (conversion, rest) =>
      some (text, conversion, text.length + 1 + (after.length - rest.length))

/-- The call `re.exec(fmt)`: the match at the first start position that has
one. -/
def exec : List Char → Option (List Char × Char × Nat)
  | [] => none
  | c :: cs =>
    match matchHere (c :: cs) with
    | some found => some found
    | none => exec cs

/-- The loop of `sprintf` without arguments, for at most `fuel` matches; every
match shortens `fmt`, so the length of the format plus one is enough. -/
def sprintfLoop (format : String) : Nat → List Char → List Char → Except JsError (List Char)
  | 0, ret, fmt => .ok (ret ++ fmt)
  | fuel + 1, ret, fmt =>
    match exec fmt with
    | none => .ok (ret ++ fmt)
    | some (text, conversion, length) =>
      if conversion = '%' then
        sprintfLoop format fuel (ret ++ text ++ ['%']) (fmt.drop length)
      else .error (.formatError format conversion)

/-- The call `sprintf(format)`. -/
def sprintf (format : String) : Except JsError String :=
  match sprintfLoop format (format.data.length + 1) [] format.data with
  | .ok ret => .ok (String.mk ret)
  | .error e => .error e

/-- The expression `new VError(err, errMessage)`: the object, or what the
constructor throws while it formats the message. -/
def newVError (err : JsError) (errMessage : String) : Except JsError JsError :=
  match sprintf errMessage with
  | .ok message => .ok (.verror err message)
  | .error e => .error e

/-- The function `uploadSourcemap(form, { filename, rollbarEndpoint, silent })`,
given the reply of the network to its one request. -/
def uploadSourcemap (reply : Post → FetchReply) (form : Form) (args : UploadArgs) :
    UploadRun :=
  let request : Post := ⟨args.rollbarEndpoint, form⟩
  let r := reply request
  -- `await fetch(...)` resumes one tick after the promise settled
  let resumed := r.delay + 1 + 1
  match r.outcome with
  | .error err =>
    match newVError err (errMessage args.filename) with
    | .ok wrapped => ⟨[request], resumed, .error wrapped, []⟩
    | .error thrown => ⟨[request], resumed, .error thrown, []⟩
  | .ok res =>
    if res.ok then
      ⟨[request], resumed, .ok (),
        if args.silent then [] else ["Uploaded " ++ args.filename ++ " to Rollbar"]⟩
    else
      match details res with
      | .ok text =>
        ⟨[request], resumed + res.bodyDelay + 1 + 1,
          .error (.error "Error" (errMessage args.filename ++ ": " ++ text)), []⟩
      | .error thrown => ⟨[request], resumed + res.bodyDelay + 1 + 1, .error thrown, []⟩

/-! ## The host and the options -/

/-- The module `path` of the host, as far as the plugin uses it. -/
structure PathModule where
  extname : String → String

/-- What the plugin finds around it.  `path` is what the identifier `path`
resolves to when `writeBundle` runs: `src/index.js` uses `path.extname` but
imports only `resolve` from the module, so the identifier is looked up in the
global scope, and `none` stands for a scope without it (the lookup throws a
`ReferenceError`).  `readFileSync` returns the text of a file or the string
`${error}` of what it throws; `glob` is `fast-glob` with a pattern and a
`cwd`. -/
structure Host where
  path : Option PathModule
  resolve : String → String → String
  existsSync : String → Bool
  readFileSync : String → Except String String
  glob : String → String → Except JsError (List String)

/-- The options object the caller passes; `none` is an omitted option. -/
structure Options where
  accessToken : String
  version : String
  baseUrl : String
  silent : Option Bool
  rollbarEndpoint : Option String
  ignoreUploadErrors : Option Bool
  base : Option String
  outputDir : Option String

/-- The variables bound by the parameter list of `rollbarSourcemaps`, after
the defaults have been applied. -/
structure Config where
  accessToken : String
  version : String
  baseUrl : String
  silent : Bool
  rollbarEndpoint : String
  ignoreUploadErrors : Bool
  base : String
  outputDir : String

/-- An element of `sourcemaps`. -/
structure Artifact where
  content : String
  sourcemap_url : String
  original_file : String
  deriving DecidableEq, Repr

/-- One run of `writeBundle`: the array `sourcemaps` (empty when the run did
not get that far), the `console.error` lines written while locating, the calls
of `uploadSourcemap` in order, the tick at which the promise of `writeBundle`
settles and how, and the error logged by
`console.error('Uploading sourcemaps to Rollbar failed: ', error)`. -/
structure Run where
  sourcemaps : List Artifact
  diagnostics : List String
  uploads : List UploadRun
  completedAt : Nat
  outcome : Except JsError Unit
  failureLog : Option JsError

/-- The requests a run issued, in order. -/
def Run.posts (run : Run) : List Post :=
  (run.uploads.map (fun u => u.posts)).flatten

/-- The plugin object `rollbarSourcemaps` returns. -/
structure Plugin where
  name : String
  localProps : String × String × String × Bool × String
  writeBundle : Host → Network → List String → Run

/-- The call `file.replace(/\.map$/, '')`: the pattern matches only the four
characters `.map` at the end of the string. -/
def stripMapSuffix (file : String) : String :=
  if ".map".data.isSuffixOf file.data then
    String.mk (file.data.take (file.data.length - 4))
  else file

/-! ## Joining promises -/

/-- The rejection `Promise.all` takes over: that of the promise that rejects
first (of two that reject in the same tick, the one earlier in the array),
with its tick. -/
def firstRejection : List UploadRun → Option (Nat × JsError)
  | [] => none
  | u :: rest =>
    match u.result, firstRejection rest with
    | .ok _, r => r
    | .error e, none => some (u.settledAt, e)
    | .error e, some (t, e') => if u.settledAt ≤ t then some (u.settledAt, e) else some (t, e')

/-- The tick at which the last promise of the array settles (`0` for none). -/
def lastSettled : List UploadRun → Nat
  | [] => 0
  | u :: rest => max u.settledAt (lastSettled rest)

/-- The call `Promise.all(promises)`: the tick at which the promise it returns
settles and how.  It rejects as soon as one element has rejected, and fulfils
once all have fulfilled; either happens in the job after that element
settled. -/
def promiseAll (promises : List UploadRun) : Nat × Except JsError Unit :=
  match firstRejection promises with
  | some (t, e) => (t + 1, .error e)
  | none => (lastSettled promises + 1, .ok ())

/-! ## The manifest variant, `src/index.js` -/

namespace Manifest

/-- The array `files`: the keys of `bundle` whose `path.extname` is `.js`,
each with `.map` appended.  The callback of `filter` runs once per key, and
its first run throws when `path` does not resolve. -/
def files (host : Host) (bundle : List String) : Except JsError (List String) :=
  match bundle, host.path with
  | [], _ => .ok []
  | _ :: _, none => .error (.error "ReferenceError" "path is not defined")
  | keys, some path =>
    .ok ((keys.filter (fun file => path.extname file == ".js")).map (fun file => file ++ ".map"))

/-- The callback of `files.map`: the artifact (or `none` for `null`) and what
it wrote with `console.error`. -/
def mapFile (cfg : Config) (host : Host) (file : String) : Option Artifact × List String :=
  let sourcePath := stripMapSuffix file
  let sourcemapLocation := host.resolve cfg.outputDir file
  match host.readFileSync sourcemapLocation with
  | .ok content => (some ⟨content, sourcemapLocation, cfg.base ++ sourcePath⟩, [])
  | .error error =>
    (none, ["Error reading sourcemap file " ++ sourcemapLocation ++ ": " ++ error])

/-- The form built in the callback of `sourcemaps.map`. -/
def form (cfg : Config) (asset : Artifact) : Form :=
  (((Form.empty.set "access_token" (.text cfg.accessToken)).set
    "version" (.text cfg.version)).set
    "minified_url" (.text (cfg.baseUrl ++ asset.original_file))).set
    "source_map" (.file asset.content asset.original_file none)

/-- The array `sourcemaps.map((asset) => ... uploadSourcemap(form, ...))`: the
`i`-th call gets the reply of the network to the `i`-th request. -/
def dispatch (cfg : Config) (net : Network) : Nat → List Artifact → List UploadRun
  | _, [] => []
  | i, asset :: rest =>
    uploadSourcemap (net i) (form cfg asset)
        ⟨asset.original_file, cfg.rollbarEndpoint, cfg.silent⟩
      :: dispatch cfg net (i + 1) rest

/-- The method `writeBundle(options, bundle)`; `bundle` is given by its keys. -/
def writeBundle (cfg : Config) (host : Host) (net : Network) (bundle : List String) : Run :=
  match files host bundle with
  | .error e => ⟨[], [], [], 0, .error e, none⟩
  | .ok fs =>
    let mapped := fs.map (mapFile cfg host)
    let sourcemaps := mapped.filterMap (fun r => r.1)
    let diagnostics := (mapped.map (fun r => r.2)).flatten
    if sourcemaps.isEmpty then ⟨sourcemaps, diagnostics, [], 0, .ok (), none⟩
    else
      let uploads := dispatch cfg net 0 sourcemaps
      let joined := promiseAll uploads
      match joined.2 with
      | .ok _ => ⟨sourcemaps, diagnostics, uploads, joined.1 + 1, .ok (), none⟩
      | .error error =>
        if cfg.ignoreUploadErrors then
          ⟨sourcemaps, diagnostics, uploads, joined.1 + 1, .ok (), some error⟩
        else
          ⟨sourcemaps, diagnostics, uploads, joined.1 + 1, .error error, none⟩

/-- The parameter list of `rollbarSourcemaps` with its defaults.
`ROLLBAR_ENDPOINT` is imported from `./constants`. -/
def config (ROLLBAR_ENDPOINT : String) (opts : Options) : Config :=
  { accessToken := opts.accessToken
    version := opts.version
    baseUrl := opts.baseUrl
    silent := opts.silent.getD false
    rollbarEndpoint := opts.rollbarEndpoint.getD ROLLBAR_ENDPOINT
    ignoreUploadErrors := opts.ignoreUploadErrors.getD true
    base := opts.base.getD "/"
    outputDir := opts.outputDir.getD "dist" }

/-- The default export of `src/index.js`. -/
def rollbarSourcemaps (ROLLBAR_ENDPOINT : String) (opts : Options) : Plugin :=
  let cfg := config ROLLBAR_ENDPOINT opts
  { name := "vite-plugin-rollbar"
    localProps := (cfg.accessToken, cfg.version, cfg.baseUrl, cfg.silent, cfg.rollbarEndpoint)
    writeBundle := writeBundle cfg }

end Manifest

/-! ## The pattern variant, `esm/index.js` -/

namespace Pattern

/-- The constant `ROLLBAR_ENDPOINT` of `esm/index.js`. -/
def ROLLBAR_ENDPOINT : String := "https://api.rollbar.com/api/1/sourcemap"

/-- The callback of `files.map`: the artifact (or `none` for `null`) and what
it wrote with `console.error`. -/
def mapFile (cfg : Config) (host : Host) (file : String) : Option Artifact × List String :=
  let sourcePath := stripMapSuffix file
  let sourceFilename := host.resolve cfg.outputDir sourcePath
  if !host.existsSync sourceFilename then
    (none, ["No corresponding source found for '" ++ file ++ "'"])
  else
    let sourcemapLocation := host.resolve cfg.outputDir file
    match host.readFileSync sourcemapLocation with
    | .ok content => (some ⟨content, sourcemapLocation, cfg.base ++ sourcePath⟩, [])
    | .error error =>
      (none, ["Error reading sourcemap file " ++ sourcemapLocation ++ ": " ++ error])

/-- The form built in the callback of `sourcemaps.forEach`. -/
def form (cfg : Config) (asset : Artifact) : Form :=
  (((Form.empty.append "access_token" (.text cfg.accessToken)).append
    "version" (.text cfg.version)).append
    "minified_url" (.text (cfg.baseUrl ++ asset.original_file))).append
    "source_map" (.file asset.content asset.original_file (some "application/json"))

/-- The calls of `uploadSourcemap` made by `sourcemaps.forEach`; the promises
they return are dropped. -/
def dispatch (cfg : Config) (net : Network) : Nat → List Artifact → List UploadRun
  | _, [] => []
  | i, asset :: rest =>
    uploadSourcemap (net i) (form cfg asset)
        ⟨asset.original_file, cfg.rollbarEndpoint, cfg.silent⟩
      :: dispatch cfg net (i + 1) rest

/-- The method `writeBundle()`.  Tick `0` is the job that runs after
`await glob(...)`.  `forEach` returns `undefined`, so `Promise.all` is handed
no promise (the promise it returns rejects with a `TypeError` nobody
observes), and nothing is awaited or returned: the method returns in the job
in which it dispatched the uploads. -/
def writeBundle (cfg : Config) (host : Host) (net : Network) : Run :=
  match host.glob "./**/*.map" cfg.outputDir with
  | .error e => ⟨[], [], [], 0, .error e, none⟩
  | .ok fs =>
    let mapped := fs.map (mapFile cfg host)
    let sourcemaps := mapped.filterMap (fun r => r.1)
    let diagnostics := (mapped.map (fun r => r.2)).flatten
    if sourcemaps.isEmpty then ⟨sourcemaps, diagnostics, [], 0, .ok (), none⟩
    else ⟨sourcemaps, diagnostics, dispatch cfg net 0 sourcemaps, 0, .ok (), none⟩

/-- The parameter list of `rollbarSourcemaps` with its defaults; the variant
has no option `ignoreUploadErrors`. -/
def config (opts : Options) : Config :=
  { accessToken := opts.accessToken
    version := opts.version
    baseUrl := opts.baseUrl
    silent := opts.silent.getD false
    rollbarEndpoint := opts.rollbarEndpoint.getD ROLLBAR_ENDPOINT
    ignoreUploadErrors := false
    base := opts.base.getD "/"
    outputDir := opts.outputDir.getD "dist" }

/-- The default export of `esm/index.js`; the bundle keys are not read. -/
def rollbarSourcemaps (opts : Options) : Plugin :=
  let cfg := config opts
  { name := "rollbar-sourcemap-vite-plugin"
    localProps := (cfg.accessToken, cfg.version, cfg.baseUrl, cfg.silent, cfg.rollbarEndpoint)
    writeBundle := fun host net _ => writeBundle cfg host net }

end Pattern

/-! ## A sample host for closed examples -/

/-- A `path.extname` for closed examples: the part of the last path segment
from its last dot on, and the empty string when the segment has no dot or
only a leading one (as for names without `..` and without a trailing slash). -/
def sampleExtname (file : String) : String :=
  let segment := (file.data.reverse.takeWhile (fun c => c != '/')).reverse
  let stem := (segment.reverse.dropWhile (fun c => c != '.')).reverse
  if stem.length ≤ 1 then "" else String.mk (segment.drop (stem.length - 1))

/-- A `resolve` for closed examples: the project lives in `/project`, and a
leading `./` of the second argument is dropped. -/
def sampleResolve (dir file : String) : String :=
  "/project/" ++ dir ++ "/" ++
    (if "./".data.isPrefixOf file.data then String.mk (file.data.drop 2) else file)

/-- A host for closed examples: `path` as given, a disk with the listed files
and their text, and a `glob` that returns the listed matches. -/
def sampleHost (path : Option PathModule) (disk : List (String × String))
    (found : List String) : Host :=
  { path := path
    resolve := sampleResolve
    existsSync := fun file => (disk.lookup file).isSome
    readFileSync := fun file =>
      match disk.lookup file with
      | some text => .ok text
      | none => .error ("Error: ENOENT: no such file or directory, open '" ++ file ++ "'")
    glob := fun _ _ => .ok found }

/-- The `path` module of the sample host. -/
def samplePath : PathModule := ⟨sampleExtname⟩

/-- A disk with a compiled file and its sourcemap. -/
def sampleDisk : List (String × String) :=
  [("/project/dist/app.js", "code"), ("/project/dist/app.js.map", "mappings")]

/-- A disk whose sourcemap file is empty. -/
def emptyMapDisk : List (String × String) :=
  [("/project/dist/app.js", "code"), ("/project/dist/app.js.map", "")]

/-- A disk with two compiled files and their sourcemaps. -/
def twoFileDisk : List (String × String) :=
  [("/project/dist/app.js", "code"), ("/project/dist/app.js.map", "mappings"),
   ("/project/dist/vendor.js", "code"), ("/project/dist/vendor.js.map", "mappings")]

/-- A network that rejects the first request at once with status 500 and a
body that is not JSON, and accepts every later request after seven ticks. -/
def unevenNetwork : Network :=
  fun i _ =>
    if i = 0 then
      ⟨0, .ok ⟨false, 500, "Internal Server Error",
        .error (.error "SyntaxError" "Unexpected end of JSON input"), 0⟩⟩
    else ⟨7, .ok ⟨true, 200, "OK", .ok .null, 0⟩⟩

/-- A disk with two compiled files whose sourcemaps differ. -/
def distinctDisk : List (String × String) :=
  [("/project/dist/app.js", "code"), ("/project/dist/app.js.map", "mappings of app"),
   ("/project/dist/vendor.js", "code"), ("/project/dist/vendor.js.map", "mappings of vendor")]

/-- The options of the scenarios of the specification. -/
def sampleConfig (ignoreUploadErrors : Bool) : Config :=
  { accessToken := "token"
    version := "1.0.0"
    baseUrl := "https://cdn.example.com"
    silent := false
    rollbarEndpoint := "https://api.rollbar.com/api/1/sourcemap"
    ignoreUploadErrors := ignoreUploadErrors
    base := "/"
    outputDir := "dist" }

/-- A network that answers every request after `delay` ticks with the given
status and JSON body. -/
def sampleNetwork (delay : Nat) (status : Nat) (statusText : String)
    (body : Except JsError Json) : Network :=
  fun _ _ => ⟨delay, .ok ⟨decide (200 ≤ status ∧ status ≤ 299), status, statusText, body, 0⟩⟩

/-! ## Joining promises: what `Promise.all` takes over -/

theorem firstRejection_some {ps : List UploadRun} {t : Nat} {e : JsError}
    (h : firstRejection ps = some (t, e)) :
    ∃ u ∈ ps, u.result = .error e ∧ u.settledAt = t := by
  induction ps generalizing t e with
  | nil => simp [firstRejection] at h
  | cons u rest ih =>
    unfold firstRejection at h
    split at h
    · obtain ⟨v, hv, hr⟩ := ih h
      exact ⟨v, List.mem_cons_of_mem _ hv, hr⟩
    · simp only [Option.some.injEq, Prod.mk.injEq] at h
      exact ⟨u, List.mem_cons_self _ _, by simp_all⟩
    · rename_i e1 t1 e2 hres hrest
      split at h
      · simp only [Option.some.injEq, Prod.mk.injEq] at h
        exact ⟨u, List.mem_cons_self _ _, by simp_all⟩
      · simp only [Option.some.injEq, Prod.mk.injEq] at h
        obtain ⟨v, hv, hr⟩ := ih hrest
        exact ⟨v, List.mem_cons_of_mem _ hv, by simp_all⟩

theorem firstRejection_none {ps : List UploadRun} :
    firstRejection ps = none ↔ ∀ u ∈ ps, u.result = .ok () := by
  induction ps with
  | nil => simp [firstRejection]
  | cons u rest ih =>
    unfold firstRejection
    split
    · rename_i hres
      simp [ih, hres]
    · rename_i e hres hrest
      simp [hres]
    · rename_i e1 t1 e2 hres hrest
      split <;> simp [hres]

theorem firstRejection_le {ps : List UploadRun} {t : Nat} {e : JsError}
    (h : firstRejection ps = some (t, e)) :
    ∀ u ∈ ps, ∀ e', u.result = .error e' → t ≤ u.settledAt := by
  induction ps generalizing t e with
  | nil => simp
  | cons u rest ih =>
    unfold firstRejection at h
    intro v hv e' hve
    rcases List.mem_cons.mp hv with rfl | hv
    · split at h
      · rename_i hres
        rw [hres] at hve; cases hve
      · simp only [Option.some.injEq, Prod.mk.injEq] at h
        omega
      · split at h
        · simp only [Option.some.injEq, Prod.mk.injEq] at h
          omega
        · simp only [Option.some.injEq, Prod.mk.injEq] at h
          omega
    · split at h
      · exact ih h v hv e' hve
      · rename_i hrest
        have := firstRejection_none.mp hrest v hv
        rw [this] at hve; cases hve
      · rename_i e1 t1 e2 hres hrest
        have := ih hrest v hv e' hve
        split at h
        · simp only [Option.some.injEq, Prod.mk.injEq] at h
          omega
        · simp only [Option.some.injEq, Prod.mk.injEq] at h
          omega

theorem promiseAll_error {ps : List UploadRun} {e : JsError}
    (h : (promiseAll ps).2 = .error e) : ∃ u ∈ ps, u.result = .error e := by
  unfold promiseAll at h
  split at h
  · rename_i t e' hfirst
    obtain ⟨u, hu, hres, -⟩ := firstRejection_some hfirst
    simp only [Except.error.injEq] at h
    exact ⟨u, hu, h ▸ hres⟩
  · simp at h

theorem promiseAll_ok {ps : List UploadRun} :
    (promiseAll ps).2 = .ok () ↔ ∀ u ∈ ps, u.result = .ok () := by
  unfold promiseAll
  split
  · rename_i t e' hfirst
    obtain ⟨u, hu, hres, -⟩ := firstRejection_some hfirst
    constructor
    · intro h; simp at h
    · intro h; rw [h u hu] at hres; cases hres
  · rename_i hfirst
    exact ⟨fun _ => firstRejection_none.mp hfirst, fun _ => rfl⟩

theorem le_lastSettled {ps : List UploadRun} : ∀ u ∈ ps, u.settledAt ≤ lastSettled ps := by
  induction ps with
  | nil => simp
  | cons v rest ih =>
    intro u hu
    rcases List.mem_cons.mp hu with rfl | hu
    · simp [lastSettled]
    · have := ih u hu
      simp only [lastSettled]
      omega


/-! ## `uploadSourcemap`: the outcome of one upload -/

theorem exec_of_no_percent (cs : List Char) (h : ∀ c ∈ cs, c ≠ '%') : exec cs = none := by
  induction cs with
  | nil => rfl
  | cons c rest ih =>
    have hdrop : (c :: rest).dropWhile (fun c => c != '%') = [] := by
      rw [List.dropWhile_eq_nil_iff]
      intro x hx
      simpa using h x hx
    have hhere : matchHere (c :: rest) = none := by
      simp only [matchHere, hdrop]
    simp only [exec, hhere]
    exact ih (fun x hx => h x (List.mem_cons_of_mem _ hx))

theorem sprintf_of_no_percent (format : String) (h : ∀ c ∈ format.data, c ≠ '%') :
    sprintf format = .ok format := by
  simp [sprintf, sprintfLoop, exec_of_no_percent format.data h]

theorem errMessage_no_percent (filename : String) (h : ∀ c ∈ filename.data, c ≠ '%') :
    ∀ c ∈ (errMessage filename).data, c ≠ '%' := by
  intro c hc
  simp only [errMessage, String.data_append, List.mem_append] at hc
  rcases hc with (hc | hc) | hc
  · intro hpercent
    subst hpercent
    revert hc
    decide
  · exact h c hc
  · intro hpercent
    subst hpercent
    revert hc
    decide

theorem matchHere_length_pos {cs text : List Char} {conversion : Char} {length : Nat}
    (h : matchHere cs = some (text, conversion, length)) : 0 < length := by
  simp only [matchHere] at h
  split at h
  · cases h
  · split at h
    · cases h
    · simp only [Option.some.injEq, Prod.mk.injEq] at h
      omega

theorem exec_length_pos {cs text : List Char} {conversion : Char} {length : Nat}
    (h : exec cs = some (text, conversion, length)) : 0 < length ∧ cs ≠ [] := by
  induction cs with
  | nil => simp [exec] at h
  | cons c rest ih =>
    refine ⟨?_, List.cons_ne_nil _ _⟩
    simp only [exec] at h
    split at h
    · rename_i found hfound
      cases h
      exact matchHere_length_pos hfound
    · exact (ih h).1

/-- The loop of `sprintf` does not run out of fuel: above the length of the
format, more fuel changes nothing. -/
theorem sprintfLoop_fuel (format : String) (fuel extra : Nat) (ret fmt : List Char)
    (h : fmt.length < fuel) :
    sprintfLoop format (fuel + extra) ret fmt = sprintfLoop format fuel ret fmt := by
  induction fuel generalizing ret fmt with
  | zero => omega
  | succ n ih =>
    have hstep : n + 1 + extra = (n + extra) + 1 := by omega
    rw [hstep]
    simp only [sprintfLoop]
    cases hexec : exec fmt with
    | none => rfl
    | some found =>
      obtain ⟨text, conversion, length⟩ := found
      obtain ⟨hpos, hne⟩ := exec_length_pos hexec
      simp only
      split
      · apply ih
        have hfmt : 0 < fmt.length := List.length_pos.mpr hne
        rw [List.length_drop]
        omega
      · rfl

theorem uploadSourcemap_result_of_not_ok (reply : Post → FetchReply) (form : Form)
    (args : UploadArgs) (res : Response)
    (hreply : (reply ⟨args.rollbarEndpoint, form⟩).outcome = .ok res) (hok : res.ok = false) :
    (uploadSourcemap reply form args).result =
      match details res with
      | .ok text => .error (.error "Error" (errMessage args.filename ++ ": " ++ text))
      | .error thrown => .error thrown := by
  simp only [uploadSourcemap, hreply, hok]
  cases details res <;> rfl

theorem uploadSourcemap_result_of_throw (reply : Post → FetchReply) (form : Form)
    (args : UploadArgs) (err : JsError)
    (hreply : (reply ⟨args.rollbarEndpoint, form⟩).outcome = .error err) :
    (uploadSourcemap reply form args).result =
      match newVError err (errMessage args.filename) with
      | .ok wrapped => .error wrapped
      | .error thrown => .error thrown := by
  simp only [uploadSourcemap, hreply]
  cases newVError err (errMessage args.filename) <;> rfl

/-- C1, refuted: for the body `message: (toString: 1)` the conversion of
`details` throws, so the error raised is a `TypeError` and not an `Error`
with the message `Failed to upload /app.js to Rollbar: <detail>`; for the body
`message: null` the detail is the status line, not `null`. -/
theorem uploadSourcemap_rejection_not_always_message :
    ((uploadSourcemap
          (sampleNetwork 0 500 "Internal Server Error"
            (.ok (.obj [("message", .obj [("toString", .num "1")])])) 0)
          Form.empty ⟨"/app.js", "https://api.rollbar.com/api/1/sourcemap", false⟩).result =
        .error (.error "TypeError" "Cannot convert object to primitive value") ∧
      ¬ ∃ detail : String,
        (uploadSourcemap
          (sampleNetwork 0 500 "Internal Server Error"
            (.ok (.obj [("message", .obj [("toString", .num "1")])])) 0)
          Form.empty ⟨"/app.js", "https://api.rollbar.com/api/1/sourcemap", false⟩).result =
        .error (.error "Error" ("Failed to upload /app.js to Rollbar: " ++ detail))) ∧
    (uploadSourcemap
        (sampleNetwork 0 500 "Internal Server Error" (.ok (.obj [("message", .null)])) 0)
        Form.empty ⟨"/app.js", "https://api.rollbar.com/api/1/sourcemap", false⟩).result =
      .error (.error "Error" "Failed to upload /app.js to Rollbar: 500 - Internal Server Error") := by
  have hthrown : (uploadSourcemap
      (sampleNetwork 0 500 "Internal Server Error"
        (.ok (.obj [("message", .obj [("toString", .num "1")])])) 0)
      Form.empty ⟨"/app.js", "https://api.rollbar.com/api/1/sourcemap", false⟩).result =
      .error (.error "TypeError" "Cannot convert object to primitive value") := by decide
  refine ⟨⟨hthrown, ?_⟩, by decide⟩
  rintro ⟨detail, hdetail⟩
  rw [hthrown] at hdetail
  simp at hdetail

/-- C1, amended: for a response with `res.ok` false `uploadSourcemap` raises
an error.  It is an `Error` with the message
`Failed to upload <filename> to Rollbar: <detail>`, where the detail is `X`
when the body is a JSON object whose `message` is the string `X`, and
`<status> - <statusText>` when the body does not parse, is no object, or is an
object without `message` or with the `message` `null`.  When `message` is an
object with an own `toString`, the `TypeError` of its conversion is raised
instead. -/
theorem uploadSourcemap_rejection_message (reply : Post → FetchReply) (form : Form)
    (args : UploadArgs) (res : Response)
    (hreply : (reply ⟨args.rollbarEndpoint, form⟩).outcome = .ok res) (hok : res.ok = false) :
    (∃ e, (uploadSourcemap reply form args).result = .error e) ∧
    (∀ members X, res.json = .ok (.obj members) → members.lookup "message" = some (.str X) →
      (uploadSourcemap reply form args).result =
        .error (.error "Error" ("Failed to upload " ++ args.filename ++ " to Rollbar: " ++ X))) ∧
    (∀ parseErr, res.json = .error parseErr →
      (uploadSourcemap reply form args).result =
        .error (.error "Error" ("Failed to upload " ++ args.filename ++ " to Rollbar: " ++
          (toString res.status ++ " - " ++ res.statusText)))) ∧
    (∀ body, res.json = .ok body →
      (∀ members, body = .obj members →
        members.lookup "message" = none ∨ members.lookup "message" = some .null) →
      (uploadSourcemap reply form args).result =
        .error (.error "Error" ("Failed to upload " ++ args.filename ++ " to Rollbar: " ++
          (toString res.status ++ " - " ++ res.statusText)))) ∧
    (∀ members fields, res.json = .ok (.obj members) →
      members.lookup "message" = some (.obj fields) → fields.lookup "toString" ≠ none →
      (uploadSourcemap reply form args).result =
        .error (.error "TypeError" "Cannot convert object to primitive value")) ∧
    (∀ members v, res.json = .ok (.obj members) → members.lookup "message" = some v →
      v ≠ .null →
      (∀ text, v.render = .ok text →
        (uploadSourcemap reply form args).result =
          .error (.error "Error"
            ("Failed to upload " ++ args.filename ++ " to Rollbar: " ++ text))) ∧
      (∀ thrown, v.render = .error thrown →
        (uploadSourcemap reply form args).result = .error thrown)) := by
  have hresult := uploadSourcemap_result_of_not_ok reply form args res hreply hok
  have hprefix : ∀ text : String, errMessage args.filename ++ ": " ++ text =
      "Failed to upload " ++ args.filename ++ " to Rollbar: " ++ text := by
    intro text
    simp [errMessage, String.append_assoc]
  refine ⟨?_, ?_, ?_, ?_, ?_, ?_⟩
  · rw [hresult]
    cases details res with
    | ok text => exact ⟨_, rfl⟩
    | error thrown => exact ⟨_, rfl⟩
  · intro members X hbody hmsg
    rw [hresult]
    simp [details, hbody, Json.message?, hmsg, Json.render, hprefix]
  · intro parseErr hbody
    rw [hresult]
    simp [details, hbody, statusLine, hprefix]
  · intro body hbody hnone
    rw [hresult]
    cases body with
    | obj members =>
      rcases hnone members rfl with hmsg | hmsg <;>
        simp [details, hbody, Json.message?, hmsg, statusLine, hprefix]
    | null => simp [details, hbody, Json.message?, statusLine, hprefix]
    | bool b => simp [details, hbody, Json.message?, statusLine, hprefix]
    | num n => simp [details, hbody, Json.message?, statusLine, hprefix]
    | str t => simp [details, hbody, Json.message?, statusLine, hprefix]
    | arr items => simp [details, hbody, Json.message?, statusLine, hprefix]
  · intro members fields hbody hmsg hto
    rw [hresult]
    cases hlookup : fields.lookup "toString" with
    | none => exact absurd hlookup hto
    | some v => simp [details, hbody, Json.message?, hmsg, Json.render, hlookup, cannotConvert]
  · intro members v hbody hmsg hnull
    have hdetails : details res = v.render := by
      cases v with
      | null => exact absurd rfl hnull
      | bool b => simp only [details, hbody, Json.message?, hmsg]
      | num n => simp only [details, hbody, Json.message?, hmsg]
      | str t => simp only [details, hbody, Json.message?, hmsg]
      | arr items => simp only [details, hbody, Json.message?, hmsg]
      | obj fields => simp only [details, hbody, Json.message?, hmsg]
    rw [hresult, hdetails]
    constructor
    · intro text htext
      simp [htext, hprefix]
    · intro thrown hthrown
      simp [hthrown]

/-- C1, amended, at the scenario of the specification: status 500 with the
body `message: "rate limited"`, for the file `/app.js`. -/
theorem uploadSourcemap_rejection_message_witness :
    (sampleNetwork 0 500 "Internal Server Error"
        (.ok (.obj [("message", .str "rate limited")])) 0
        ⟨"https://api.rollbar.com/api/1/sourcemap", Form.empty⟩).outcome =
      .ok ⟨false, 500, "Internal Server Error",
        .ok (.obj [("message", .str "rate limited")]), 0⟩ ∧
    (uploadSourcemap
        (sampleNetwork 0 500 "Internal Server Error"
          (.ok (.obj [("message", .str "rate limited")])) 0)
        Form.empty ⟨"/app.js", "https://api.rollbar.com/api/1/sourcemap", false⟩).result =
      .error (.error "Error" "Failed to upload /app.js to Rollbar: rate limited") :=
  ⟨rfl,
    (uploadSourcemap_rejection_message
      (sampleNetwork 0 500 "Internal Server Error"
        (.ok (.obj [("message", .str "rate limited")])) 0)
      Form.empty ⟨"/app.js", "https://api.rollbar.com/api/1/sourcemap", false⟩
      ⟨false, 500, "Internal Server Error", .ok (.obj [("message", .str "rate limited")]), 0⟩
      rfl rfl).2.1 [("message", .str "rate limited")] "rate limited" rfl rfl⟩

/-- C3, at the failing input: the request throws and the filename is
`/a%sb.js`; `new VError(err, errMessage)` reads `%s` as a conversion without
argument and throws, so what `uploadSourcemap` raises is the plain `Error` of
`sprintf`, not an object that carries the cause. -/
theorem uploadSourcemap_loses_cause_on_percent :
    (uploadSourcemap (fun _ => ⟨0, .error (.error "TypeError" "fetch failed")⟩) Form.empty
        ⟨"/a%sb.js", "https://api.rollbar.com/api/1/sourcemap", false⟩).result =
      .error (.formatError "Failed to upload /a%sb.js to Rollbar" 's') ∧
    ∀ message : String,
      (uploadSourcemap (fun _ => ⟨0, .error (.error "TypeError" "fetch failed")⟩) Form.empty
        ⟨"/a%sb.js", "https://api.rollbar.com/api/1/sourcemap", false⟩).result ≠
      .error (.verror (.error "TypeError" "fetch failed") message) := by
  have hthrown : (uploadSourcemap (fun _ => ⟨0, .error (.error "TypeError" "fetch failed")⟩)
      Form.empty ⟨"/a%sb.js", "https://api.rollbar.com/api/1/sourcemap", false⟩).result =
      .error (.formatError "Failed to upload /a%sb.js to Rollbar" 's') := by decide
  refine ⟨hthrown, ?_⟩
  intro message hwrapped
  rw [hthrown] at hwrapped
  simp at hwrapped

/-- What `uploadSourcemap` does for every input: it completes normally exactly
when the request returns a response with `res.ok` true, and raises an error
otherwise; when the request throws and the filename holds no `%`, the error is
the `VError` with the cause and the message
`Failed to upload <filename> to Rollbar`. -/
theorem uploadSourcemap_outcome (reply : Post → FetchReply) (form : Form)
    (args : UploadArgs) :
    ((uploadSourcemap reply form args).result = .ok () ↔
      ∃ res, (reply ⟨args.rollbarEndpoint, form⟩).outcome = .ok res ∧ res.ok = true) ∧
    (∀ err, (reply ⟨args.rollbarEndpoint, form⟩).outcome = .error err →
      (∀ c ∈ args.filename.data, c ≠ '%') →
      (uploadSourcemap reply form args).result =
        .error (.verror err ("Failed to upload " ++ args.filename ++ " to Rollbar"))) ∧
    (∀ err, (reply ⟨args.rollbarEndpoint, form⟩).outcome = .error err →
      ∃ e, (uploadSourcemap reply form args).result = .error e) ∧
    (∀ res, (reply ⟨args.rollbarEndpoint, form⟩).outcome = .ok res → res.ok = false →
      ∃ e, (uploadSourcemap reply form args).result = .error e) := by
  have hthrow : ∀ err, (reply ⟨args.rollbarEndpoint, form⟩).outcome = .error err →
      ∃ e, (uploadSourcemap reply form args).result = .error e := by
    intro err hreply
    rw [uploadSourcemap_result_of_throw reply form args err hreply]
    cases newVError err (errMessage args.filename) with
    | ok wrapped => exact ⟨_, rfl⟩
    | error thrown => exact ⟨_, rfl⟩
  have hnotok : ∀ res, (reply ⟨args.rollbarEndpoint, form⟩).outcome = .ok res →
      res.ok = false → ∃ e, (uploadSourcemap reply form args).result = .error e := by
    intro res hreply hok
    rw [uploadSourcemap_result_of_not_ok reply form args res hreply hok]
    cases details res with
    | ok text => exact ⟨_, rfl⟩
    | error thrown => exact ⟨_, rfl⟩
  refine ⟨?_, ?_, hthrow, hnotok⟩
  · cases hreply : (reply ⟨args.rollbarEndpoint, form⟩).outcome with
    | error err =>
      obtain ⟨e, he⟩ := hthrow err hreply
      simp [he]
    | ok res =>
      cases hok : res.ok with
      | true => simp [uploadSourcemap, hreply, hok]
      | false =>
        obtain ⟨e, he⟩ := hnotok res hreply hok
        simp [he, hok]
  · intro err hreply hfilename
    rw [uploadSourcemap_result_of_throw reply form args err hreply]
    have hformat := sprintf_of_no_percent _ (errMessage_no_percent args.filename hfilename)
    simp only [newVError, hformat]
    rfl

/-! ## The locator and the upload stage of the manifest variant -/

theorem stripMapSuffix_append_map (k : String) : stripMapSuffix (k ++ ".map") = k := by
  have hdata : (k ++ ".map").data = k.data ++ ".map".data := String.data_append k ".map"
  have hsuffix : ".map".data.isSuffixOf (k.data ++ ".map".data) = true := by
    rw [List.isSuffixOf_iff_suffix]
    exact List.suffix_append _ _
  unfold stripMapSuffix
  rw [hdata, if_pos hsuffix]
  have hlen : (k.data ++ ".map".data).length - 4 = k.data.length := by
    simp [List.length_append]
  rw [hlen, List.take_left']
  rfl

theorem uploadSourcemap_posts (reply : Post → FetchReply) (form : Form) (args : UploadArgs) :
    (uploadSourcemap reply form args).posts = [⟨args.rollbarEndpoint, form⟩] := by
  simp only [uploadSourcemap]
  split
  · split <;> rfl
  · split
    · rfl
    · split <;> rfl

theorem uploadSourcemap_settles_later (reply : Post → FetchReply) (form : Form)
    (args : UploadArgs) : 2 ≤ (uploadSourcemap reply form args).settledAt := by
  simp only [uploadSourcemap]
  split
  · split <;> simp
  · split
    · simp
    · split <;> simp

namespace Manifest

theorem posts_dispatch (cfg : Config) (net : Network) (i : Nat) (assets : List Artifact) :
    ((dispatch cfg net i assets).map (fun u => u.posts)).flatten =
      assets.map (fun asset => ⟨cfg.rollbarEndpoint, form cfg asset⟩) := by
  induction assets generalizing i with
  | nil => simp [dispatch]
  | cons asset rest ih => simp [dispatch, ih, uploadSourcemap_posts]

theorem writeBundle_located (cfg : Config) (host : Host) (net : Network) (bundle fs : List String)
    (hfiles : files host bundle = .ok fs) :
    (writeBundle cfg host net bundle).sourcemaps =
        (fs.map (mapFile cfg host)).filterMap (fun r => r.1) ∧
      (writeBundle cfg host net bundle).diagnostics =
        ((fs.map (mapFile cfg host)).map (fun r => r.2)).flatten := by
  simp only [writeBundle, hfiles]
  split
  · exact ⟨rfl, rfl⟩
  · split
    · exact ⟨rfl, rfl⟩
    · split <;> exact ⟨rfl, rfl⟩

theorem writeBundle_uploads (cfg : Config) (host : Host) (net : Network) (bundle : List String) :
    (writeBundle cfg host net bundle).uploads =
      dispatch cfg net 0 (writeBundle cfg host net bundle).sourcemaps := by
  simp only [writeBundle]
  split
  · rfl
  · split
    · rename_i hempty
      simp only [List.isEmpty_iff] at hempty
      simp [hempty, dispatch]
    · split
      · rfl
      · split <;> rfl

theorem writeBundle_joined (cfg : Config) (host : Host) (net : Network) (bundle : List String)
    (hlocated : (writeBundle cfg host net bundle).sourcemaps ≠ []) :
    (writeBundle cfg host net bundle).completedAt =
        (promiseAll (writeBundle cfg host net bundle).uploads).1 + 1 ∧
      ((promiseAll (writeBundle cfg host net bundle).uploads).2 = .ok () →
        (writeBundle cfg host net bundle).outcome = .ok () ∧
          (writeBundle cfg host net bundle).failureLog = none) ∧
      (∀ e, (promiseAll (writeBundle cfg host net bundle).uploads).2 = .error e →
        (cfg.ignoreUploadErrors = true →
          (writeBundle cfg host net bundle).outcome = .ok () ∧
            (writeBundle cfg host net bundle).failureLog = some e) ∧
        (cfg.ignoreUploadErrors = false →
          (writeBundle cfg host net bundle).outcome = .error e ∧
            (writeBundle cfg host net bundle).failureLog = none)) := by
  revert hlocated
  simp only [writeBundle]
  split
  · intro h; exact absurd rfl h
  · split
    · rename_i hempty
      simp only [List.isEmpty_iff] at hempty
      intro h; exact absurd hempty h
    · intro _
      split
      · rename_i hjoin
        refine ⟨rfl, fun _ => ⟨rfl, rfl⟩, ?_⟩
        intro e he
        rw [hjoin] at he
        cases he
      · rename_i err hjoin
        split
        · rename_i hignore
          refine ⟨rfl, ?_, ?_⟩
          · intro hok; rw [hjoin] at hok; cases hok
          · intro e he
            rw [hjoin] at he
            cases he
            exact ⟨fun _ => ⟨rfl, rfl⟩, fun h => by simp [h] at hignore⟩
        · rename_i hignore
          refine ⟨rfl, ?_, ?_⟩
          · intro hok; rw [hjoin] at hok; cases hok
          · intro e he
            rw [hjoin] at he
            cases he
            exact ⟨fun h => absurd h hignore, fun _ => ⟨rfl, rfl⟩⟩

theorem writeBundle_independent_of_network (cfg : Config) (host : Host) (net net' : Network)
    (bundle : List String) :
    (writeBundle cfg host net bundle).sourcemaps = (writeBundle cfg host net' bundle).sourcemaps ∧
      (writeBundle cfg host net bundle).diagnostics =
        (writeBundle cfg host net' bundle).diagnostics := by
  cases hfiles : files host bundle with
  | error e => simp [writeBundle, hfiles]
  | ok fs =>
    obtain ⟨h1, h2⟩ := writeBundle_located cfg host net bundle fs hfiles
    obtain ⟨h3, h4⟩ := writeBundle_located cfg host net' bundle fs hfiles
    exact ⟨h1.trans h3.symm, h2.trans h4.symm⟩

theorem writeBundle_posts (cfg : Config) (host : Host) (net : Network) (bundle : List String) :
    (writeBundle cfg host net bundle).posts =
      (writeBundle cfg host net bundle).sourcemaps.map
        (fun asset => ⟨cfg.rollbarEndpoint, form cfg asset⟩) := by
  rw [Run.posts, writeBundle_uploads, posts_dispatch]

theorem length_dispatch (cfg : Config) (net : Network) (i : Nat) (assets : List Artifact) :
    (dispatch cfg net i assets).length = assets.length := by
  induction assets generalizing i with
  | nil => rfl
  | cons asset rest ih => simp [dispatch, ih]

theorem posts_of_mem_dispatch (cfg : Config) (net : Network) (i : Nat) (assets : List Artifact) :
    ∀ u ∈ dispatch cfg net i assets, ∃ asset ∈ assets,
      u.posts = [⟨cfg.rollbarEndpoint, form cfg asset⟩] := by
  induction assets generalizing i with
  | nil => simp [dispatch]
  | cons asset rest ih =>
    intro u hu
    simp only [dispatch, List.mem_cons] at hu
    rcases hu with rfl | hu
    · exact ⟨asset, List.mem_cons_self _ _, uploadSourcemap_posts _ _ _⟩
    · obtain ⟨a, ha, hp⟩ := ih (i + 1) u hu
      exact ⟨a, List.mem_cons_of_mem _ ha, hp⟩

/-- C2: in the manifest variant, a run of `writeBundle` that located an
artifact fails exactly when an upload failed and `ignoreUploadErrors` is
false, and then with the error of a failed upload; when an upload failed and
`ignoreUploadErrors` is true, the run logs that error and returns; an omitted
`ignoreUploadErrors` is true. -/
theorem writeBundle_fails_iff (cfg : Config) (host : Host) (net : Network)
    (bundle : List String)
    (hlocated : (writeBundle cfg host net bundle).sourcemaps ≠ []) :
    ((∃ e, (writeBundle cfg host net bundle).outcome = .error e) ↔
      (∃ u ∈ (writeBundle cfg host net bundle).uploads, ∃ e, u.result = .error e) ∧
        cfg.ignoreUploadErrors = false) ∧
    (∀ e, (writeBundle cfg host net bundle).outcome = .error e →
      ∃ u ∈ (writeBundle cfg host net bundle).uploads, u.result = .error e) ∧
    ((∃ u ∈ (writeBundle cfg host net bundle).uploads, ∃ e, u.result = .error e) →
      cfg.ignoreUploadErrors = true →
      (writeBundle cfg host net bundle).outcome = .ok () ∧
        ∃ e, (writeBundle cfg host net bundle).failureLog = some e ∧
          ∃ u ∈ (writeBundle cfg host net bundle).uploads, u.result = .error e) ∧
    (∀ ROLLBAR_ENDPOINT opts, opts.ignoreUploadErrors = none →
      (rollbarSourcemaps ROLLBAR_ENDPOINT opts).writeBundle =
          writeBundle (config ROLLBAR_ENDPOINT opts) ∧
        (config ROLLBAR_ENDPOINT opts).ignoreUploadErrors = true) := by
  obtain ⟨-, hok, herr⟩ := writeBundle_joined cfg host net bundle hlocated
  have hdefault : ∀ ROLLBAR_ENDPOINT opts, opts.ignoreUploadErrors = none →
      (rollbarSourcemaps ROLLBAR_ENDPOINT opts).writeBundle =
          writeBundle (config ROLLBAR_ENDPOINT opts) ∧
        (config ROLLBAR_ENDPOINT opts).ignoreUploadErrors = true := by
    intro E opts h
    exact ⟨rfl, by simp [config, h]⟩
  cases hjoin : (promiseAll (writeBundle cfg host net bundle).uploads).2 with
  | ok v =>
    cases v
    have hall := promiseAll_ok.mp hjoin
    obtain ⟨hout, -⟩ := hok hjoin
    have hnone : ¬ ∃ u ∈ (writeBundle cfg host net bundle).uploads, ∃ e, u.result = .error e := by
      rintro ⟨u, hu, e, he⟩
      rw [hall u hu] at he
      cases he
    refine ⟨⟨?_, fun h => absurd h.1 hnone⟩, ?_, fun h => absurd h hnone, hdefault⟩
    · rintro ⟨e, he⟩
      rw [hout] at he
      cases he
    · intro e he
      rw [hout] at he
      cases he
  | error err =>
    obtain ⟨u, hu, hres⟩ := promiseAll_error hjoin
    obtain ⟨hignore, hstrict⟩ := herr err hjoin
    cases hflag : cfg.ignoreUploadErrors with
    | true =>
      obtain ⟨hout, hlog⟩ := hignore hflag
      refine ⟨⟨?_, fun h => by simp at h⟩, ?_, fun _ _ => ⟨hout, err, hlog, u, hu, hres⟩, hdefault⟩
      · rintro ⟨e, he⟩
        rw [hout] at he
        cases he
      · intro e he
        rw [hout] at he
        cases he
    | false =>
      obtain ⟨hout, -⟩ := hstrict hflag
      refine ⟨⟨fun _ => ⟨⟨u, hu, err, hres⟩, rfl⟩, fun _ => ⟨err, hout⟩⟩, ?_,
        fun _ h => by simp at h, hdefault⟩
      intro e he
      rw [hout] at he
      cases he
      exact ⟨u, hu, hres⟩

/-- C10: in the manifest variant a run issues one request per located
artifact, in order, each to `rollbarEndpoint`, whatever the network answers:
every call of `uploadSourcemap` issues one request, so a run that located `n`
artifacts issues `n` requests and two such runs issue `2 * n`. -/
theorem one_post_per_located_artifact (cfg : Config) (host : Host) (net : Network)
    (bundle : List String) :
    (writeBundle cfg host net bundle).posts =
        (writeBundle cfg host net bundle).sourcemaps.map
          (fun asset => ⟨cfg.rollbarEndpoint, form cfg asset⟩) ∧
    (writeBundle cfg host net bundle).posts.length =
        (writeBundle cfg host net bundle).sourcemaps.length ∧
    (∀ p ∈ (writeBundle cfg host net bundle).posts, p.url = cfg.rollbarEndpoint) ∧
    (writeBundle cfg host net bundle).uploads.length =
        (writeBundle cfg host net bundle).sourcemaps.length ∧
    (∀ u ∈ (writeBundle cfg host net bundle).uploads, u.posts.length = 1) ∧
    (∀ net' : Network,
      (writeBundle cfg host net' bundle).posts = (writeBundle cfg host net bundle).posts ∧
      ((writeBundle cfg host net bundle).posts ++ (writeBundle cfg host net' bundle).posts).length =
        2 * (writeBundle cfg host net bundle).sourcemaps.length) := by
  have hposts := writeBundle_posts cfg host net bundle
  have hlen : (writeBundle cfg host net bundle).posts.length =
      (writeBundle cfg host net bundle).sourcemaps.length := by
    rw [hposts, List.length_map]
  refine ⟨hposts, hlen, ?_, ?_, ?_, ?_⟩
  · intro p hp
    rw [hposts] at hp
    obtain ⟨a, -, rfl⟩ := List.mem_map.mp hp
    rfl
  · rw [writeBundle_uploads, length_dispatch]
  · intro u hu
    rw [writeBundle_uploads] at hu
    obtain ⟨a, -, hp⟩ := posts_of_mem_dispatch cfg net 0 _ u hu
    rw [hp]
    rfl
  · intro net'
    have hsame : (writeBundle cfg host net' bundle).posts =
        (writeBundle cfg host net bundle).posts := by
      rw [writeBundle_posts, hposts, (writeBundle_independent_of_network cfg host net net' bundle).1]
    refine ⟨hsame, ?_⟩
    rw [List.length_append, hsame, hlen]
    omega

/-- C2 at the scenario of the specification: the endpoint answers 500 and
`ignoreUploadErrors` is false, so the run fails. -/
theorem writeBundle_fails_iff_witness :
    (writeBundle (sampleConfig false) (sampleHost (some samplePath) sampleDisk [])
        (sampleNetwork 0 500 "Internal Server Error" (.ok (.obj [("message", .str "rate limited")])))
        ["app.js"]).sourcemaps ≠ [] ∧
    ((∃ e, (writeBundle (sampleConfig false) (sampleHost (some samplePath) sampleDisk [])
        (sampleNetwork 0 500 "Internal Server Error" (.ok (.obj [("message", .str "rate limited")])))
        ["app.js"]).outcome = .error e) ↔
      (∃ u ∈ (writeBundle (sampleConfig false) (sampleHost (some samplePath) sampleDisk [])
        (sampleNetwork 0 500 "Internal Server Error" (.ok (.obj [("message", .str "rate limited")])))
        ["app.js"]).uploads, ∃ e, u.result = .error e) ∧
        (sampleConfig false).ignoreUploadErrors = false) :=
  ⟨by decide,
    (writeBundle_fails_iff (sampleConfig false) (sampleHost (some samplePath) sampleDisk [])
      (sampleNetwork 0 500 "Internal Server Error" (.ok (.obj [("message", .str "rate limited")])))
      ["app.js"] (by decide)).1⟩

theorem mapFile_fst (cfg : Config) (host : Host) (file : String) :
    (mapFile cfg host file).1 =
      match host.readFileSync (host.resolve cfg.outputDir file) with
      | .ok content =>
        some ⟨content, host.resolve cfg.outputDir file, cfg.base ++ stripMapSuffix file⟩
      | .error _ => none := by
  simp only [mapFile]
  split <;> rfl

theorem files_of_path (host : Host) (path : PathModule) (hpath : host.path = some path)
    (bundle : List String) :
    files host bundle =
      .ok ((bundle.filter (fun k => path.extname k == ".js")).map (fun k => k ++ ".map")) := by
  cases bundle with
  | nil => simp [files]
  | cons k rest => simp [files, hpath]

/-- With `path` bound, the located artifacts of the manifest variant are, in
manifest order, one per key with extension `.js` whose sourcemap can be read,
with the text read as content and `base ++ k` as `original_file`; the result
does not depend on `existsSync`. -/
theorem sourcemaps_of_path (cfg : Config) (host : Host) (net : Network) (path : PathModule)
    (hpath : host.path = some path) (bundle : List String) :
    (writeBundle cfg host net bundle).sourcemaps =
      (bundle.filter (fun k => path.extname k == ".js")).filterMap (fun k =>
        match host.readFileSync (host.resolve cfg.outputDir (k ++ ".map")) with
        | .ok content => some ⟨content, host.resolve cfg.outputDir (k ++ ".map"), cfg.base ++ k⟩
        | .error _ => none) := by
  rw [(writeBundle_located cfg host net bundle _ (files_of_path host path hpath bundle)).1]
  rw [List.map_map, List.filterMap_map]
  congr 1
  funext k
  simp only [Function.comp, mapFile_fst, stripMapSuffix_append_map]

theorem mem_sourcemaps (cfg : Config) (host : Host) (net : Network) (bundle : List String) :
    ∀ asset ∈ (writeBundle cfg host net bundle).sourcemaps,
      ∃ k ∈ bundle, (∃ path, host.path = some path ∧ path.extname k = ".js") ∧
        host.readFileSync (host.resolve cfg.outputDir (k ++ ".map")) = .ok asset.content ∧
        asset = ⟨asset.content, host.resolve cfg.outputDir (k ++ ".map"), cfg.base ++ k⟩ := by
  intro asset hasset
  cases hpath : host.path with
  | none =>
    cases bundle with
    | nil => simp [writeBundle, files] at hasset
    | cons k rest => simp [writeBundle, files, hpath] at hasset
  | some path =>
    rw [sourcemaps_of_path cfg host net path hpath bundle] at hasset
    obtain ⟨k, hk, hsome⟩ := List.mem_filterMap.mp hasset
    obtain ⟨hkmem, hext⟩ := List.mem_filter.mp hk
    refine ⟨k, hkmem, ⟨path, rfl, by simpa using hext⟩, ?_⟩
    cases hread : host.readFileSync (host.resolve cfg.outputDir (k ++ ".map")) with
    | error e => simp [hread] at hsome
    | ok content =>
      simp only [hread, Option.some.injEq] at hsome
      subst hsome
      exact ⟨rfl, rfl⟩

end Manifest

/-! ## The locator and the upload stage of the pattern variant -/

namespace Pattern

theorem posts_of_dispatch (cfg : Config) (net : Network) (i : Nat) (assets : List Artifact) :
    ((dispatch cfg net i assets).map (fun u => u.posts)).flatten =
      assets.map (fun asset => ⟨cfg.rollbarEndpoint, form cfg asset⟩) := by
  induction assets generalizing i with
  | nil => simp [dispatch]
  | cons asset rest ih => simp [dispatch, ih, uploadSourcemap_posts]

theorem settled_of_mem_dispatch (cfg : Config) (net : Network) (i : Nat)
    (assets : List Artifact) : ∀ u ∈ dispatch cfg net i assets, 2 ≤ u.settledAt := by
  induction assets generalizing i with
  | nil => simp [dispatch]
  | cons asset rest ih =>
    intro u hu
    simp only [dispatch, List.mem_cons] at hu
    rcases hu with rfl | hu
    · exact uploadSourcemap_settles_later _ _ _
    · exact ih (i + 1) u hu

theorem located_of_glob (cfg : Config) (host : Host) (net : Network) (found : List String)
    (hglob : host.glob "./**/*.map" cfg.outputDir = .ok found) :
    (writeBundle cfg host net).sourcemaps =
        (found.map (mapFile cfg host)).filterMap (fun r => r.1) ∧
      (writeBundle cfg host net).diagnostics =
        ((found.map (mapFile cfg host)).map (fun r => r.2)).flatten ∧
      (writeBundle cfg host net).outcome = .ok () ∧
      (writeBundle cfg host net).completedAt = 0 := by
  simp only [writeBundle, hglob]
  split <;> exact ⟨rfl, rfl, rfl, rfl⟩

theorem uploads_eq_dispatch (cfg : Config) (host : Host) (net : Network) :
    (writeBundle cfg host net).uploads = dispatch cfg net 0 (writeBundle cfg host net).sourcemaps := by
  simp only [writeBundle]
  split
  · rfl
  · split
    · rename_i hempty
      simp only [List.isEmpty_iff] at hempty
      simp [hempty, dispatch]
    · rfl

theorem posts_eq_map (cfg : Config) (host : Host) (net : Network) :
    (writeBundle cfg host net).posts =
      (writeBundle cfg host net).sourcemaps.map
        (fun asset => ⟨cfg.rollbarEndpoint, form cfg asset⟩) := by
  rw [Run.posts, uploads_eq_dispatch, posts_of_dispatch]

theorem mapFile_artifact (cfg : Config) (host : Host) (file : String) :
    (mapFile cfg host file).1 =
      if host.existsSync (host.resolve cfg.outputDir (stripMapSuffix file)) then
        match host.readFileSync (host.resolve cfg.outputDir file) with
        | .ok content =>
          some ⟨content, host.resolve cfg.outputDir file, cfg.base ++ stripMapSuffix file⟩
        | .error _ => none
      else none := by
  simp only [mapFile]
  cases host.existsSync (host.resolve cfg.outputDir (stripMapSuffix file)) with
  | false => simp
  | true =>
    simp only [Bool.not_true, Bool.false_eq_true, if_false, if_true]
    split <;> rfl

theorem mem_located (cfg : Config) (host : Host) (net : Network) (found : List String)
    (hglob : host.glob "./**/*.map" cfg.outputDir = .ok found) :
    ∀ asset ∈ (writeBundle cfg host net).sourcemaps,
      ∃ file ∈ found,
        host.existsSync (host.resolve cfg.outputDir (stripMapSuffix file)) = true ∧
        host.readFileSync (host.resolve cfg.outputDir file) = .ok asset.content ∧
        asset = ⟨asset.content, host.resolve cfg.outputDir file,
          cfg.base ++ stripMapSuffix file⟩ := by
  intro asset hasset
  rw [(located_of_glob cfg host net found hglob).1, List.filterMap_map] at hasset
  obtain ⟨file, hfile, hsome⟩ := List.mem_filterMap.mp hasset
  simp only [Function.comp, mapFile_artifact] at hsome
  refine ⟨file, hfile, ?_⟩
  cases hexists : host.existsSync (host.resolve cfg.outputDir (stripMapSuffix file)) with
  | false => simp [hexists] at hsome
  | true =>
    cases hread : host.readFileSync (host.resolve cfg.outputDir file) with
    | error e => simp [hexists, hread] at hsome
    | ok content =>
      simp only [hexists, hread, if_true, Option.some.injEq] at hsome
      subst hsome
      exact ⟨rfl, rfl, rfl⟩

end Pattern

theorem Manifest.form_entries (cfg : Config) (asset : Artifact) :
    Manifest.form cfg asset =
      ⟨[("access_token", .text cfg.accessToken), ("version", .text cfg.version),
        ("minified_url", .text (cfg.baseUrl ++ asset.original_file)),
        ("source_map", .file asset.content asset.original_file none)]⟩ := by
  simp [Manifest.form, Form.set, Form.empty, setEntry]

theorem Pattern.form_fields (cfg : Config) (asset : Artifact) :
    Pattern.form cfg asset =
      ⟨[("access_token", .text cfg.accessToken), ("version", .text cfg.version),
        ("minified_url", .text (cfg.baseUrl ++ asset.original_file)),
        ("source_map", .file asset.content asset.original_file (some "application/json"))]⟩ := by
  simp [Pattern.form, Form.append, Form.empty]

/-- C4: every located artifact has its own request, whose `minified_url` is
`baseUrl` followed by the `original_file` of that artifact and whose file part
is the content of that artifact; the artifact of a candidate has
`original_file = base ++ p` with `p` the path of that candidate without its
final `.map`, so the request of a candidate carries the text read from it and
`minified_url = baseUrl ++ base ++ p`.  In the manifest variant `p` is the
key: stripping `.map` from `k ++ ".map"` gives `k`.  The keys `app.js` and
`vendor.js` with base `/` and baseUrl `https://cdn.example.com` give
`https://cdn.example.com/app.js` and `https://cdn.example.com/vendor.js`,
each with its own sourcemap. -/
theorem minified_url_is_concatenation (cfg : Config) (host : Host) (net : Network) :
    (∀ bundle,
      (Manifest.writeBundle cfg host net bundle).posts =
        (Manifest.writeBundle cfg host net bundle).sourcemaps.map (fun asset =>
          ⟨cfg.rollbarEndpoint,
            ⟨[("access_token", .text cfg.accessToken), ("version", .text cfg.version),
              ("minified_url", .text (cfg.baseUrl ++ asset.original_file)),
              ("source_map", .file asset.content asset.original_file none)]⟩⟩)) ∧
    (∀ bundle path, host.path = some path →
      (Manifest.writeBundle cfg host net bundle).posts =
        (bundle.filter (fun k => path.extname k == ".js")).filterMap (fun k =>
          match host.readFileSync (host.resolve cfg.outputDir (k ++ ".map")) with
          | .ok content =>
            some ⟨cfg.rollbarEndpoint,
              ⟨[("access_token", .text cfg.accessToken), ("version", .text cfg.version),
                ("minified_url", .text (cfg.baseUrl ++ cfg.base ++ k)),
                ("source_map", .file content (cfg.base ++ k) none)]⟩⟩
          | .error _ => none)) ∧
    ((Pattern.writeBundle cfg host net).posts =
        (Pattern.writeBundle cfg host net).sourcemaps.map (fun asset =>
          ⟨cfg.rollbarEndpoint,
            ⟨[("access_token", .text cfg.accessToken), ("version", .text cfg.version),
              ("minified_url", .text (cfg.baseUrl ++ asset.original_file)),
              ("source_map",
                .file asset.content asset.original_file (some "application/json"))]⟩⟩)) ∧
    (∀ found, host.glob "./**/*.map" cfg.outputDir = .ok found →
      (Pattern.writeBundle cfg host net).posts =
        found.filterMap (fun file =>
          if host.existsSync (host.resolve cfg.outputDir (stripMapSuffix file)) then
            match host.readFileSync (host.resolve cfg.outputDir file) with
            | .ok content =>
              some ⟨cfg.rollbarEndpoint,
                ⟨[("access_token", .text cfg.accessToken), ("version", .text cfg.version),
                  ("minified_url", .text (cfg.baseUrl ++ cfg.base ++ stripMapSuffix file)),
                  ("source_map", .file content (cfg.base ++ stripMapSuffix file)
                    (some "application/json"))]⟩⟩
            | .error _ => none
          else none)) ∧
    (∀ k : String, stripMapSuffix (k ++ ".map") = k) ∧
    (Manifest.writeBundle (sampleConfig true) (sampleHost (some samplePath) distinctDisk [])
        (sampleNetwork 0 200 "OK" (.ok .null)) ["app.js", "vendor.js"]).posts.map
        (fun p => (p.body.get "minified_url", p.body.get "source_map")) =
      [(some (.text "https://cdn.example.com/app.js"),
          some (.file "mappings of app" "/app.js" none)),
        (some (.text "https://cdn.example.com/vendor.js"),
          some (.file "mappings of vendor" "/vendor.js" none))] := by
  refine ⟨?_, ?_, ?_, ?_, stripMapSuffix_append_map, by decide⟩
  · intro bundle
    rw [Manifest.writeBundle_posts]
    simp only [Manifest.form_entries]
  · intro bundle path hpath
    rw [Manifest.writeBundle_posts, Manifest.sourcemaps_of_path cfg host net path hpath bundle,
      List.map_filterMap]
    congr 1
    funext k
    cases host.readFileSync (host.resolve cfg.outputDir (k ++ ".map")) with
    | error e => rfl
    | ok content => simp [Manifest.form_entries, String.append_assoc]
  · rw [Pattern.posts_eq_map]
    simp only [Pattern.form_fields]
  · intro found hglob
    rw [Pattern.posts_eq_map, (Pattern.located_of_glob cfg host net found hglob).1,
      List.filterMap_map, List.map_filterMap]
    congr 1
    funext file
    simp only [Function.comp, Pattern.mapFile_artifact]
    cases host.existsSync (host.resolve cfg.outputDir (stripMapSuffix file)) with
    | false => rfl
    | true =>
      cases host.readFileSync (host.resolve cfg.outputDir file) with
      | error e => rfl
      | ok content => simp [Pattern.form_fields, String.append_assoc]

/-! ## Which candidates are uploaded -/

/-- C5, refuted: a sourcemap file that reads as the empty string is located
and uploaded, in the pattern variant and (with `path` bound) in the manifest
variant. -/
theorem empty_sourcemap_is_uploaded :
    (Pattern.writeBundle (sampleConfig true) (sampleHost none emptyMapDisk ["app.js.map"])
        (sampleNetwork 0 200 "OK" (.ok .null))).posts.map (fun p => p.body.get "source_map") =
      [some (.file "" "/app.js" (some "application/json"))] ∧
    ¬ (∀ asset ∈ (Pattern.writeBundle (sampleConfig true)
          (sampleHost none emptyMapDisk ["app.js.map"])
          (sampleNetwork 0 200 "OK" (.ok .null))).sourcemaps,
        asset.content ≠ "" ∧ asset.original_file ≠ "") ∧
    (Manifest.writeBundle (sampleConfig true) (sampleHost (some samplePath) emptyMapDisk [])
        (sampleNetwork 0 200 "OK" (.ok .null)) ["app.js"]).posts.map
        (fun p => p.body.get "source_map") =
      [some (.file "" "/app.js" none)] := by
  refine ⟨by decide, by decide, by decide⟩

theorem append_ne_empty (base p : String) (h : base ≠ "" ∨ p ≠ "") : base ++ p ≠ "" := by
  intro happ
  have hdata : base.data ++ p.data = [] := by
    rw [← String.data_append, happ]
  obtain ⟨hb, hp⟩ := List.append_eq_nil.mp hdata
  rcases h with h | h
  · exact h (String.ext hb)
  · exact h (String.ext hp)

theorem stripMapSuffix_eq_empty (file : String) (h : stripMapSuffix file = "") :
    file = "" ∨ file = ".map" := by
  unfold stripMapSuffix at h
  split at h
  · rename_i hsuffix
    right
    rw [List.isSuffixOf_iff_suffix] at hsuffix
    obtain ⟨front, hfront⟩ := hsuffix
    have htake : file.data.take (file.data.length - 4) = [] := by
      have := congrArg String.data h
      simpa using this
    have hlen : (front ++ ".map".data).length - 4 = front.length := by
      simp [List.length_append]
    rw [← hfront, hlen, List.take_left'] at htake
    · apply String.ext
      rw [← hfront, htake]
      rfl
    · rfl
  · exact Or.inl h

/-- C5, amended: in both variants a request is issued for exactly the
candidates whose sourcemap file is read (in the pattern variant, whose
compiled source also exists), with the text read as content, empty or not;
every located artifact, and so every artifact that is uploaded, has a
non-empty `original_file`, given that `path.extname('')` is not `.js` and that
`glob` returns neither the empty name nor the bare name `.map`. -/
theorem uploaded_iff_read (cfg : Config) (host : Host) (net : Network)
    (hext : ∀ path, host.path = some path → path.extname "" ≠ ".js")
    (hmatch : ∀ found, host.glob "./**/*.map" cfg.outputDir = .ok found →
      ∀ file ∈ found, file ≠ "" ∧ file ≠ ".map") :
    (∀ bundle fs, Manifest.files host bundle = .ok fs →
      ∀ p, p ∈ (Manifest.writeBundle cfg host net bundle).posts ↔
        ∃ file ∈ fs, ∃ content,
          host.readFileSync (host.resolve cfg.outputDir file) = .ok content ∧
          p = ⟨cfg.rollbarEndpoint, Manifest.form cfg
            ⟨content, host.resolve cfg.outputDir file, cfg.base ++ stripMapSuffix file⟩⟩) ∧
    (∀ found, host.glob "./**/*.map" cfg.outputDir = .ok found →
      ∀ p, p ∈ (Pattern.writeBundle cfg host net).posts ↔
        ∃ file ∈ found, ∃ content,
          host.existsSync (host.resolve cfg.outputDir (stripMapSuffix file)) = true ∧
          host.readFileSync (host.resolve cfg.outputDir file) = .ok content ∧
          p = ⟨cfg.rollbarEndpoint, Pattern.form cfg
            ⟨content, host.resolve cfg.outputDir file, cfg.base ++ stripMapSuffix file⟩⟩) ∧
    (∀ bundle,
      (∀ asset ∈ (Manifest.writeBundle cfg host net bundle).sourcemaps,
        asset.original_file ≠ "") ∧
      ∀ p ∈ (Manifest.writeBundle cfg host net bundle).posts,
        ∃ asset ∈ (Manifest.writeBundle cfg host net bundle).sourcemaps,
          p = ⟨cfg.rollbarEndpoint, Manifest.form cfg asset⟩ ∧ asset.original_file ≠ "") ∧
    ((∀ asset ∈ (Pattern.writeBundle cfg host net).sourcemaps, asset.original_file ≠ "") ∧
      ∀ p ∈ (Pattern.writeBundle cfg host net).posts,
        ∃ asset ∈ (Pattern.writeBundle cfg host net).sourcemaps,
          p = ⟨cfg.rollbarEndpoint, Pattern.form cfg asset⟩ ∧ asset.original_file ≠ "") := by
  have hmanifest : ∀ bundle, ∀ asset ∈ (Manifest.writeBundle cfg host net bundle).sourcemaps,
      asset.original_file ≠ "" := by
    intro bundle asset hasset
    obtain ⟨k, -, ⟨path, hpath, hk⟩, -, heq⟩ :=
      Manifest.mem_sourcemaps cfg host net bundle asset hasset
    rw [heq]
    apply append_ne_empty
    right
    intro hempty
    rw [hempty] at hk
    exact hext path hpath hk
  have hpattern : ∀ asset ∈ (Pattern.writeBundle cfg host net).sourcemaps,
      asset.original_file ≠ "" := by
    intro asset hasset
    cases hglob : host.glob "./**/*.map" cfg.outputDir with
    | error e => simp [Pattern.writeBundle, hglob] at hasset
    | ok found =>
      obtain ⟨file, hfile, -, -, heq⟩ := Pattern.mem_located cfg host net found hglob asset hasset
      rw [heq]
      apply append_ne_empty
      right
      intro hempty
      obtain ⟨h1, h2⟩ := hmatch found hglob file hfile
      rcases stripMapSuffix_eq_empty file hempty with h | h
      · exact h1 h
      · exact h2 h
  refine ⟨?_, ?_, fun bundle => ⟨hmanifest bundle, ?_⟩, hpattern, ?_⟩
  · intro bundle fs hfiles p
    rw [Manifest.writeBundle_posts, (Manifest.writeBundle_located cfg host net bundle fs hfiles).1,
      List.filterMap_map, List.mem_map]
    constructor
    · rintro ⟨asset, hasset, rfl⟩
      obtain ⟨file, hfile, hsome⟩ := List.mem_filterMap.mp hasset
      simp only [Function.comp, Manifest.mapFile_fst] at hsome
      cases hread : host.readFileSync (host.resolve cfg.outputDir file) with
      | error e => simp [hread] at hsome
      | ok content =>
        simp only [hread, Option.some.injEq] at hsome
        exact ⟨file, hfile, content, hread, by rw [hsome]⟩
    · rintro ⟨file, hfile, content, hread, rfl⟩
      refine ⟨_, List.mem_filterMap.mpr ⟨file, hfile, ?_⟩, rfl⟩
      simp only [Function.comp, Manifest.mapFile_fst, hread]
  · intro found hglob p
    rw [Pattern.posts_eq_map, (Pattern.located_of_glob cfg host net found hglob).1,
      List.filterMap_map, List.mem_map]
    constructor
    · rintro ⟨asset, hasset, rfl⟩
      obtain ⟨file, hfile, hsome⟩ := List.mem_filterMap.mp hasset
      simp only [Function.comp, Pattern.mapFile_artifact] at hsome
      cases hexists : host.existsSync (host.resolve cfg.outputDir (stripMapSuffix file)) with
      | false => simp [hexists] at hsome
      | true =>
        cases hread : host.readFileSync (host.resolve cfg.outputDir file) with
        | error e => simp [hexists, hread] at hsome
        | ok content =>
          simp only [hexists, hread, if_true, Option.some.injEq] at hsome
          exact ⟨file, hfile, content, hexists, hread, by rw [hsome]⟩
    · rintro ⟨file, hfile, content, hexists, hread, rfl⟩
      refine ⟨_, List.mem_filterMap.mpr ⟨file, hfile, ?_⟩, rfl⟩
      simp only [Function.comp, Pattern.mapFile_artifact, hexists, hread, if_true]
  · intro p hp
    rw [Manifest.writeBundle_posts] at hp
    obtain ⟨asset, hasset, rfl⟩ := List.mem_map.mp hp
    exact ⟨asset, hasset, rfl, hmanifest bundle asset hasset⟩
  · intro p hp
    rw [Pattern.posts_eq_map] at hp
    obtain ⟨asset, hasset, rfl⟩ := List.mem_map.mp hp
    exact ⟨asset, hasset, rfl, hpattern asset hasset⟩

/-- C5, amended, on a disk whose sourcemap file is empty: the artifact is
located with empty content and a non-empty `original_file`. -/
theorem uploaded_iff_read_witness :
    (Pattern.writeBundle (sampleConfig true)
        (sampleHost (some samplePath) emptyMapDisk ["app.js.map"])
        (sampleNetwork 0 200 "OK" (.ok .null))).sourcemaps =
      [⟨"", "/project/dist/app.js.map", "/app.js"⟩] ∧
    ∀ asset ∈ (Pattern.writeBundle (sampleConfig true)
        (sampleHost (some samplePath) emptyMapDisk ["app.js.map"])
        (sampleNetwork 0 200 "OK" (.ok .null))).sourcemaps, asset.original_file ≠ "" :=
  ⟨by decide,
    (uploaded_iff_read (sampleConfig true)
      (sampleHost (some samplePath) emptyMapDisk ["app.js.map"])
      (sampleNetwork 0 200 "OK" (.ok .null))
      (fun path hpath => by cases hpath; decide)
      (fun found hfound => by cases hfound; decide)).2.2.2.1⟩

/-! ## When `writeBundle` completes -/

/-- In the pattern variant `writeBundle` completes before any upload it
dispatched has settled. -/
theorem Pattern.completes_before_uploads_settle (cfg : Config) (host : Host) (net : Network) :
    ∀ u ∈ (Pattern.writeBundle cfg host net).uploads,
      (Pattern.writeBundle cfg host net).completedAt < u.settledAt := by
  intro u hu
  have hzero : (Pattern.writeBundle cfg host net).completedAt = 0 := by
    simp only [Pattern.writeBundle]
    split
    · rfl
    · split <;> rfl
  rw [Pattern.uploads_eq_dispatch] at hu
  have := Pattern.settled_of_mem_dispatch cfg net 0 _ u hu
  omega

/-- In the manifest variant, when every upload succeeds `writeBundle`
completes after all of them have settled. -/
theorem Manifest.completes_after_uploads_of_success (cfg : Config) (host : Host)
    (net : Network) (bundle : List String)
    (hall : ∀ u ∈ (Manifest.writeBundle cfg host net bundle).uploads, u.result = .ok ()) :
    ∀ u ∈ (Manifest.writeBundle cfg host net bundle).uploads,
      u.settledAt < (Manifest.writeBundle cfg host net bundle).completedAt := by
  intro u hu
  have hlocated : (Manifest.writeBundle cfg host net bundle).sourcemaps ≠ [] := by
    intro hnil
    rw [Manifest.writeBundle_uploads, hnil] at hu
    simp [Manifest.dispatch] at hu
  obtain ⟨hat, -, -⟩ := Manifest.writeBundle_joined cfg host net bundle hlocated
  have hnone := firstRejection_none.mpr hall
  have hle := le_lastSettled u hu
  rw [hat]
  simp only [promiseAll, hnone]
  omega

/-- In the manifest variant, when an upload fails `writeBundle` completes
right after the first failure, whatever the other uploads do. -/
theorem Manifest.completes_after_first_failure (cfg : Config) (host : Host)
    (net : Network) (bundle : List String) (t : Nat) (e : JsError)
    (hfirst : firstRejection (Manifest.writeBundle cfg host net bundle).uploads = some (t, e)) :
    (Manifest.writeBundle cfg host net bundle).completedAt = t + 2 := by
  have hlocated : (Manifest.writeBundle cfg host net bundle).sourcemaps ≠ [] := by
    intro hnil
    rw [Manifest.writeBundle_uploads, hnil] at hfirst
    simp [Manifest.dispatch, firstRejection] at hfirst
  obtain ⟨hat, -, -⟩ := Manifest.writeBundle_joined cfg host net bundle hlocated
  rw [hat]
  simp only [promiseAll, hfirst]

/-- C6, at the failing input: the pattern variant returns at tick 0 while its
one upload settles at tick 5; the manifest variant (with `path` bound) is done
at tick 6, after the first upload failed at tick 4, while the second upload
settles at tick 9. -/
theorem writeBundle_completes_before_uploads_settle :
    ((Pattern.writeBundle (sampleConfig true) (sampleHost none sampleDisk ["./app.js.map"])
        (sampleNetwork 3 200 "OK" (.ok .null))).outcome = .ok () ∧
      (Pattern.writeBundle (sampleConfig true) (sampleHost none sampleDisk ["./app.js.map"])
        (sampleNetwork 3 200 "OK" (.ok .null))).completedAt = 0 ∧
      (Pattern.writeBundle (sampleConfig true) (sampleHost none sampleDisk ["./app.js.map"])
        (sampleNetwork 3 200 "OK" (.ok .null))).uploads.map (fun u => u.settledAt) = [5]) ∧
    ((Manifest.writeBundle (sampleConfig true) (sampleHost (some samplePath) twoFileDisk [])
        unevenNetwork ["app.js", "vendor.js"]).outcome = .ok () ∧
      (Manifest.writeBundle (sampleConfig true) (sampleHost (some samplePath) twoFileDisk [])
        unevenNetwork ["app.js", "vendor.js"]).completedAt = 6 ∧
      (Manifest.writeBundle (sampleConfig true) (sampleHost (some samplePath) twoFileDisk [])
        unevenNetwork ["app.js", "vendor.js"]).uploads.map (fun u => u.settledAt) = [4, 9]) := by
  refine ⟨⟨by decide, by decide, by decide⟩, ⟨by decide, by decide, by decide⟩⟩

/-! ## The manifest variant without `path` -/

/-- When `path` does not resolve, `writeBundle` of the manifest variant throws
a `ReferenceError` for every bundle that has a key, and locates and uploads
nothing. -/
theorem Manifest.writeBundle_of_unbound_path (cfg : Config) (host : Host) (net : Network)
    (hpath : host.path = none) (k : String) (rest : List String) :
    (Manifest.writeBundle cfg host net (k :: rest)).outcome =
        .error (.error "ReferenceError" "path is not defined") ∧
      (Manifest.writeBundle cfg host net (k :: rest)).sourcemaps = [] ∧
      (Manifest.writeBundle cfg host net (k :: rest)).posts = [] := by
  simp [Manifest.writeBundle, Manifest.files, hpath, Run.posts]

/-- C7, at the failing input: for the manifest with the one key `app.js`,
whose sourcemap `app.js.map` can be read, the run throws the `ReferenceError`
of the unresolved `path` and locates no artifact. -/
theorem Manifest.writeBundle_locates_nothing_without_path :
    (sampleHost none sampleDisk []).readFileSync
        ((sampleHost none sampleDisk []).resolve (sampleConfig true).outputDir "app.js.map") =
      .ok "mappings" ∧
    (Manifest.writeBundle (sampleConfig true) (sampleHost none sampleDisk [])
        (sampleNetwork 0 200 "OK" (.ok .null)) ["app.js"]).outcome =
      .error (.error "ReferenceError" "path is not defined") ∧
    (Manifest.writeBundle (sampleConfig true) (sampleHost none sampleDisk [])
        (sampleNetwork 0 200 "OK" (.ok .null)) ["app.js"]).sourcemaps = [] ∧
    (Manifest.writeBundle (sampleConfig true) (sampleHost none sampleDisk [])
        (sampleNetwork 0 200 "OK" (.ok .null)) ["app.js"]).diagnostics = [] := by
  refine ⟨by decide, by decide, by decide, by decide⟩

/-- C9, at the failing input: for a bundle with the one key `style.css`, which
has no sourcemap, the manifest variant fails with the `ReferenceError` of the
unresolved `path`; it issues no request. -/
theorem Manifest.writeBundle_fails_without_sourcemaps :
    (Manifest.writeBundle (sampleConfig true) (sampleHost none [] [])
        (sampleNetwork 0 200 "OK" (.ok .null)) ["style.css"]).sourcemaps = [] ∧
    (Manifest.writeBundle (sampleConfig true) (sampleHost none [] [])
        (sampleNetwork 0 200 "OK" (.ok .null)) ["style.css"]).outcome =
      .error (.error "ReferenceError" "path is not defined") ∧
    (Manifest.writeBundle (sampleConfig true) (sampleHost none [] [])
        (sampleNetwork 0 200 "OK" (.ok .null)) ["style.css"]).posts = [] := by
  refine ⟨by decide, by decide, by decide⟩

/-- In both variants, a run whose array `sourcemaps` comes out empty returns
without error and issues no request. -/
theorem writeBundle_of_no_sourcemaps (cfg : Config) (host : Host) (net : Network) :
    (∀ bundle fs, Manifest.files host bundle = .ok fs →
      (Manifest.writeBundle cfg host net bundle).sourcemaps = [] →
      (Manifest.writeBundle cfg host net bundle).outcome = .ok () ∧
        (Manifest.writeBundle cfg host net bundle).posts = []) ∧
    (∀ found, host.glob "./**/*.map" cfg.outputDir = .ok found →
      (Pattern.writeBundle cfg host net).sourcemaps = [] →
      (Pattern.writeBundle cfg host net).outcome = .ok () ∧
        (Pattern.writeBundle cfg host net).posts = []) := by
  constructor
  · intro bundle fs hfiles hnil
    refine ⟨?_, by rw [Manifest.writeBundle_posts, hnil]; rfl⟩
    rw [(Manifest.writeBundle_located cfg host net bundle fs hfiles).1] at hnil
    simp [Manifest.writeBundle, hfiles, hnil]
  · intro found hglob hnil
    exact ⟨(Pattern.located_of_glob cfg host net found hglob).2.2.1,
      by rw [Pattern.posts_eq_map, hnil]; rfl⟩

/-! ## The located artifacts of the pattern variant -/

theorem Pattern.mapFile_of_missing_source (cfg : Config) (host : Host) (file : String)
    (hmissing : host.existsSync (host.resolve cfg.outputDir (stripMapSuffix file)) = false) :
    Pattern.mapFile cfg host file =
      (none, ["No corresponding source found for '" ++ file ++ "'"]) := by
  simp [Pattern.mapFile, hmissing]

/-- C8: in the pattern variant, a match whose compiled source does not exist
is not located and not uploaded, a diagnostic is written for it, and the run
does not fail; the located artifacts are the other matches whose sourcemap can
be read, in match order, that is the results of the callback without the
`null` entries. -/
theorem Pattern.located_artifacts (cfg : Config) (host : Host) (net : Network)
    (found : List String) (hglob : host.glob "./**/*.map" cfg.outputDir = .ok found) :
    (Pattern.writeBundle cfg host net).sourcemaps =
      (found.filter (fun file =>
          host.existsSync (host.resolve cfg.outputDir (stripMapSuffix file)))).filterMap
        (fun file =>
          match host.readFileSync (host.resolve cfg.outputDir file) with
          | .ok content =>
            some ⟨content, host.resolve cfg.outputDir file, cfg.base ++ stripMapSuffix file⟩
          | .error _ => none) ∧
    (Pattern.writeBundle cfg host net).sourcemaps.map some =
      (found.map (fun file => (Pattern.mapFile cfg host file).1)).filter
        (fun entry => entry.isSome) ∧
    (Pattern.writeBundle cfg host net).posts =
      (Pattern.writeBundle cfg host net).sourcemaps.map
        (fun asset => ⟨cfg.rollbarEndpoint, Pattern.form cfg asset⟩) ∧
    (∀ file ∈ found,
      host.existsSync (host.resolve cfg.outputDir (stripMapSuffix file)) = false →
      (Pattern.mapFile cfg host file).1 = none ∧
        ("No corresponding source found for '" ++ file ++ "'") ∈
          (Pattern.writeBundle cfg host net).diagnostics) ∧
    (Pattern.writeBundle cfg host net).outcome = .ok () := by
  obtain ⟨hmaps, hdiag, hout, -⟩ := Pattern.located_of_glob cfg host net found hglob
  refine ⟨?_, ?_, Pattern.posts_eq_map cfg host net, ?_, hout⟩
  · rw [hmaps, List.filterMap_map]
    clear hmaps hdiag hglob
    induction found with
    | nil => rfl
    | cons file rest ih =>
      cases hexists : host.existsSync (host.resolve cfg.outputDir (stripMapSuffix file)) with
      | false =>
        rw [List.filterMap_cons, List.filter_cons]
        simp only [Function.comp, Pattern.mapFile_artifact, hexists, Bool.false_eq_true, if_false]
        exact ih
      | true =>
        rw [List.filterMap_cons, List.filter_cons]
        simp only [Function.comp, Pattern.mapFile_artifact, hexists, if_true]
        rw [List.filterMap_cons]
        cases host.readFileSync (host.resolve cfg.outputDir file) with
        | error e => exact ih
        | ok content => simp only [List.cons.injEq, true_and]; exact ih
  · rw [hmaps, List.filterMap_map]
    clear hmaps hdiag hglob
    induction found with
    | nil => rfl
    | cons file rest ih =>
      cases hfst : (Pattern.mapFile cfg host file).1 with
      | none => simp [List.filterMap_cons, List.filter_cons, hfst, ih, Function.comp]
      | some asset => simp [List.filterMap_cons, List.filter_cons, hfst, ih, Function.comp]
  · intro file hfile hmissing
    have hmap := Pattern.mapFile_of_missing_source cfg host file hmissing
    refine ⟨by rw [hmap], ?_⟩
    rw [hdiag, List.mem_flatten]
    refine ⟨[("No corresponding source found for '" ++ file ++ "'")], ?_, List.mem_singleton.mpr rfl⟩
    rw [List.map_map, List.mem_map]
    exact ⟨file, hfile, by simp [Function.comp, hmap]⟩

/-- C8 at a directory with two matches, one of which has no compiled source. -/
theorem Pattern.located_artifacts_witness :
    (sampleHost none sampleDisk ["./app.js.map", "./gone.js.map"]).glob "./**/*.map"
        (sampleConfig true).outputDir = .ok ["./app.js.map", "./gone.js.map"] ∧
    (sampleHost none sampleDisk ["./app.js.map", "./gone.js.map"]).existsSync
        ((sampleHost none sampleDisk ["./app.js.map", "./gone.js.map"]).resolve
          (sampleConfig true).outputDir (stripMapSuffix "./gone.js.map")) = false ∧
    ((Pattern.mapFile (sampleConfig true)
          (sampleHost none sampleDisk ["./app.js.map", "./gone.js.map"]) "./gone.js.map").1 = none ∧
      ("No corresponding source found for '" ++ "./gone.js.map" ++ "'") ∈
        (Pattern.writeBundle (sampleConfig true)
          (sampleHost none sampleDisk ["./app.js.map", "./gone.js.map"])
          (sampleNetwork 0 200 "OK" (.ok .null))).diagnostics) ∧
    (Pattern.writeBundle (sampleConfig true)
        (sampleHost none sampleDisk ["./app.js.map", "./gone.js.map"])
        (sampleNetwork 0 200 "OK" (.ok .null))).outcome = .ok () :=
  ⟨rfl, by decide,
    (Pattern.located_artifacts (sampleConfig true)
      (sampleHost none sampleDisk ["./app.js.map", "./gone.js.map"])
      (sampleNetwork 0 200 "OK" (.ok .null)) ["./app.js.map", "./gone.js.map"] rfl).2.2.2.1
      "./gone.js.map" (by decide) (by decide),
    (Pattern.located_artifacts (sampleConfig true)
      (sampleHost none sampleDisk ["./app.js.map", "./gone.js.map"])
      (sampleNetwork 0 200 "OK" (.ok .null)) ["./app.js.map", "./gone.js.map"] rfl).2.2.2.2⟩

/-! ## The located artifacts of the manifest variant, with `path` bound -/

/-- In the manifest variant a candidate whose sourcemap cannot be read is
reported with `console.error`, and the other candidates are still mapped. -/
theorem Manifest.diagnostic_of_failed_read (cfg : Config) (host : Host) (net : Network)
    (bundle fs : List String) (hfiles : Manifest.files host bundle = .ok fs)
    (file : String) (hfile : file ∈ fs) (error : String)
    (hread : host.readFileSync (host.resolve cfg.outputDir file) = .error error) :
    (Manifest.mapFile cfg host file).1 = none ∧
      ("Error reading sourcemap file " ++ host.resolve cfg.outputDir file ++ ": " ++ error) ∈
        (Manifest.writeBundle cfg host net bundle).diagnostics := by
  have hmap : Manifest.mapFile cfg host file =
      (none, ["Error reading sourcemap file " ++ host.resolve cfg.outputDir file ++ ": " ++
        error]) := by
    simp [Manifest.mapFile, hread]
  refine ⟨by rw [hmap], ?_⟩
  rw [(Manifest.writeBundle_located cfg host net bundle fs hfiles).2, List.mem_flatten]
  refine ⟨_, ?_, List.mem_singleton.mpr rfl⟩
  rw [List.map_map, List.mem_map]
  exact ⟨file, hfile, by simp [Function.comp, hmap]⟩

/-- The manifest variant never calls `existsSync`: a run is the same on two
hosts that differ only there. -/
theorem Manifest.writeBundle_ignores_existsSync (cfg : Config) (host : Host) (net : Network)
    (bundle : List String) (existsSync : String → Bool) :
    Manifest.writeBundle cfg
        ⟨host.path, host.resolve, existsSync, host.readFileSync, host.glob⟩ net bundle =
      Manifest.writeBundle cfg host net bundle := rfl

end RollbarPlugin
